import Mathlib

/-
Verification of the sandbox-session core of the tib repository
(src/tib/chroot.py and src/tib/runner.py) against its specification.

The Python code is shallowly embedded: filesystem queries become an explicit
record of boolean predicates, external command execution becomes a trace of
actions, command exit statuses and mount results are supplied by oracles, and
Python exceptions become Except values.
-/

deriving instance DecidableEq for Except

namespace Tib

/-- Host filesystem predicates consulted by tib (os.path.exists, os.path.islink,
os.path.isfile, os.path.isdir, os.access(..., X_OK)). -/
structure FS where
  existsPath : String → Bool
  islink : String → Bool
  isfile : String → Bool
  isdir : String → Bool
  executable : String → Bool

/-- chroot.py: default architecture used to find the qemu static binary. -/
def ARCH : String := "aarch64"

/-- chroot.py: explicit path to proot. -/
def PROOT : String := "/usr/bin/proot"

/-- str.split on a single separator character, Python semantics
("".split(sep) is [""]). -/
def splitOnChar (sep : Char) : List Char → List (List Char)
  | [] => [[]]
  | c :: cs =>
    let r := splitOnChar sep cs
    if c = sep then [] :: r
    else
      match r with
      | [] => [[c]]
      | h :: t => (c :: h) :: t

/-- str.split lifted to String. -/
def pySplit (s : String) (sep : Char) : List String :=
  (splitOnChar sep s.data).map String.mk

/-- os.path.basename (paths are abstract absolute strings with "/" separators):
everything after the last "/", or the whole string if it has none. -/
def basename (p : String) : String :=
  String.mk (p.data.reverse.takeWhile (fun c => c != '/')).reverse

/-- Whether a string contains a given character (str.__contains__). -/
def strContains (s : String) (c : Char) : Bool := s.data.contains c

/-- os.path.join for the two-argument joins appearing in tib: an absolute second
component replaces the first, as in Python. -/
def pathJoin (a b : String) : String :=
  if b.data.head? = some '/' then b else a ++ "/" ++ b

/-- subprocess.CompletedProcess, restricted to the fields tib consumes. -/
structure CompletedProcess where
  args : List String
  returncode : Int
deriving DecidableEq

/-- CompletedProcess.check_returncode: raises CalledProcessError on a nonzero
exit status, modelled as an Except carrying the process. -/
def check_returncode (cp : CompletedProcess) : Except CompletedProcess Unit :=
  if cp.returncode = 0 then Except.ok () else Except.error cp

/-- chroot.run: the executed argv is the given command, prefixed with "sudo"
exactly when the explicit per-call sudo flag (here sudoFlag) is set. -/
def run_argv (command : List String) (sudoFlag : Bool) : List String :=
  if sudoFlag then "sudo" :: command else command

/-- One element of the mount configuration: the keyword arguments passed to
chroot.mount (source, target, type_, options). -/
structure MountKw where
  source : String
  target : String
  type? : Option String
  options : List String
deriving DecidableEq

/-- Result of chroot.default_mount_kwargs: the ordered mount plan, plus whether
the "network may not be reachable" warning was logged. -/
structure MountPlan where
  plan : List MountKw
  warned : Bool
deriving DecidableEq

/-- The five unconditional entries of the default mount plan, in source order. -/
def fixedMounts (rootfs : String) : List MountKw :=
  [ { source := "sysfs", target := rootfs ++ "/sys", type? := some "sysfs",
      options := ["ro", "nosuid", "nodev", "noexec", "relatime"] },
    { source := "proc", target := rootfs ++ "/proc", type? := some "proc",
      options := ["ro", "nosuid", "nodev", "noexec", "relatime"] },
    { source := "/dev", target := rootfs ++ "/dev", type? := none,
      options := ["bind", "ro"] },
    { source := "devpts", target := rootfs ++ "/dev/pts", type? := some "devpts",
      options := ["rw", "nosuid", "noexec", "relatime", "gid=5", "mode=620",
                  "ptmxmode=000"] },
    { source := "tmpfs", target := rootfs ++ "/tmp", type? := some "tmpfs",
      options := [] } ]

/-- The conditional resolv.conf bind-mount entry. -/
def resolvKw (target : String) : MountKw :=
  { source := "/etc/resolv.conf", target := target, type? := none,
    options := ["bind", "ro"] }

/-- chroot.default_mount_kwargs. The rootfs argument stands for the absolute
path computed by os.path.abspath. -/
def default_mount_kwargs (fs : FS) (rootfs : String) : MountPlan :=
  let run_resolv := rootfs ++ "/run/resolvconf/resolv.conf"
  let etc_resolv := rootfs ++ "/etc/resolv.conf"
  let resolv_target : Option String :=
    if fs.existsPath run_resolv && fs.islink etc_resolv then some run_resolv
    else if fs.existsPath etc_resolv && !fs.islink etc_resolv then some etc_resolv
    else none
  match resolv_target with
  | some t => { plan := fixedMounts rootfs ++ [resolvKw t], warned := false }
  | none => { plan := fixedMounts rootfs, warned := true }

/-- Python truthiness of an optional string: None and "" are falsy. -/
def truthy (o : Option String) : Bool :=
  match o with
  | some s => s != ""
  | none => false

/-- The session state of chroot.QemuRunner (its instance attributes).
sudoFlag models self.sudo. -/
structure QemuState where
  rootfs : String
  arch : String
  qemu : String
  mount_kwargs : List MountKw
  userspec : Option String
  tmp : String
  sudoFlag : Bool
  qemuCopied : Option String
  mounted : List String
deriving DecidableEq

/-- The distinct exception classes QemuRunner.__init__ can produce.  typeError
models the Python TypeError escaping os.path.isfile(None) (genericpath.isfile
catches only OSError and ValueError) when shutil.which returned None. -/
inductive InitError where
  | fileNotFound (msg : String)
  | notADirectory (msg : String)
  | valueError (msg : String)
  | permissionError (msg : String)
  | typeError (msg : String)
  | indexError (msg : String)
deriving DecidableEq

/-- os.path.isfile applied to a value that may be Python None (a failed
shutil.which): os.stat(None) raises TypeError, which genericpath.isfile does
not catch, so it escapes instead of returning False. -/
def pyIsfile (fs : FS) : Option String → Except InitError Bool
  | none => Except.error (InitError.typeError
      "stat: path should be string, bytes, os.PathLike or integer, not NoneType")
  | some p => Except.ok (fs.isfile p)

/-- self.arch = arch if arch else qemu.split("-")[1] (an explicit qemu path
with no "-" would raise IndexError). -/
def archResult (arch qemu : Option String) : Except InitError String :=
  if truthy arch then Except.ok (arch.getD "")
  else
    match (pySplit (qemu.getD "") '-').get? 1 with
    | some s => Except.ok s
    | none => Except.error (InitError.indexError "list index out of range")

/-- chroot.QemuRunner.__init__.  which models shutil.which, user models
getpass.getuser(), and rootfs stands for the absolute path.  Arguments whose
Python default is None are Options; Python truthiness (None, "" and [] falsy)
is modelled explicitly.  The constructor only checks and records: it issues no
mount, copy or other external command, so its embedding produces no trace. -/
def qemuInit (fs : FS) (which : String → Option String) (user : String)
    (rootfs : String) (arch : Option String) (qemu : Option String)
    (mount_kwargs : Option (List MountKw)) (additional_mounts : Option (List MountKw))
    (userspec : Option String) : Except InitError QemuState :=
  if !fs.existsPath rootfs then
    Except.error (InitError.fileNotFound (rootfs ++ " not found."))
  else if !fs.isdir rootfs then
    Except.error (InitError.notADirectory
      (rootfs ++ " needs to be a rootfs directory (tarball not supported for now)"))
  else if !truthy arch && !truthy qemu then
    Except.error (InitError.valueError "arch or qemu must be specified")
  else
    match archResult arch qemu with
    | Except.error e => Except.error e
    | Except.ok archV =>
      if truthy arch && truthy qemu then
        Except.error (InitError.valueError
          "either arch or qemu must be specified, but not both.")
      else
        let qemuPath : Option String :=
          if truthy qemu then qemu else which ("qemu-" ++ archV ++ "-static")
        match pyIsfile fs qemuPath with
        | Except.error e => Except.error e
        | Except.ok isf =>
          if !isf then
            Except.error (InitError.fileNotFound ((qemuPath.getD "None") ++ " not found"))
          else
            let q := qemuPath.getD ""
            if !fs.executable q then
              Except.error (InitError.permissionError (q ++ " not executable"))
            else
              let mk :=
                match mount_kwargs with
                | some l => if l.isEmpty then (default_mount_kwargs fs rootfs).plan else l
                | none => (default_mount_kwargs fs rootfs).plan
              let mkFull := mk ++
                (match additional_mounts with
                 | some l => l
                 | none => [])
              let userspecBad :=
                match userspec with
                | some u => u != "" && (!strContains u ':' || strContains u '-')
                | none => false
              if userspecBad then
                Except.error (InitError.valueError
                  "Userspec format invalid. see chroot manual")
              else
                Except.ok { rootfs := rootfs, arch := archV, qemu := q,
                            mount_kwargs := mkFull, userspec := userspec,
                            tmp := rootfs ++ "/tmp", sudoFlag := user != "root",
                            qemuCopied := none, mounted := [] }

/-- One external side-effecting call issued by a sandbox session.  mountA and
umountA are calls to chroot.mount / chroot.umount with the given arguments;
runA is a call to chroot.run (argv before sudo prefixing, plus the sudo flag);
copyA is shutil.copy. -/
inductive Action where
  | mountA (source target : String) (type? : Option String) (options : List String) (sudoFlag : Bool)
  | umountA (target : String) (sudoFlag : Bool)
  | runA (argv : List String) (sudoFlag : Bool)
  | copyA (src dest : String)
deriving DecidableEq

/-- The in-rootfs path where __enter__ stages the emulator:
os.path.join(rootfs, "usr", "bin", os.path.basename(self.qemu)). -/
def qemuTargetPath (st : QemuState) : String :=
  st.rootfs ++ "/usr/bin/" ++ basename st.qemu

/-- The chroot.mount call made for one configured plan entry. -/
def actionOfKw (sudoFlag : Bool) (kw : MountKw) : Action :=
  Action.mountA kw.source kw.target kw.type? kw.options sudoFlag

/-- chroot.QemuRunner.__exit__ (logging aside): remove the copied emulator
binary if staging was copied, then unmount every recorded mount in reverse
order.  Neither the rm nor the umounts are check_returncode'd, so teardown
attempts every step. -/
def qemuExitTrace (st : QemuState) : List Action :=
  (match st.qemuCopied with
   | some t => [Action.runA ["rm", t] st.sudoFlag]
   | none => []) ++
  st.mounted.reverse.map (fun t => Action.umountA t st.sudoFlag)

/-- The mount loop of __enter__: attempt each configured mount in order
(success is decided by the planOk oracle, indexed by step), appending each
target to mounted only after its mount succeeds; on the first failure run the
teardown of everything accumulated so far and surface that step's failure. -/
def mountLoop (planOk : Nat → Bool) : Nat → QemuState → List MountKw →
    List Action × Except (Nat × String) QemuState
  | _, st, [] => ([], Except.ok st)
  | i, st, kw :: rest =>
    let a := actionOfKw st.sudoFlag kw
    if planOk i then
      let out := mountLoop planOk (i + 1) { st with mounted := st.mounted ++ [kw.target] } rest
      (a :: out.1, out.2)
    else
      (a :: qemuExitTrace st, Except.error (i, kw.target))

/-- A failure during __enter__: the emulator bind mount failed, or the i-th
configured mount (0-indexed) failed; the failing target is carried along. -/
inductive EnterError where
  | bindFailed (target : String)
  | mountFailed (i : Nat) (target : String)
deriving DecidableEq

def liftMountErr : Except (Nat × String) QemuState → Except EnterError QemuState
  | Except.ok s => Except.ok s
  | Except.error p => Except.error (EnterError.mountFailed p.1 p.2)

/-- chroot.QemuRunner.__enter__: stage the emulator (bind-mount it read-only
over a pre-existing file, else cp it in and record _qemu_copied), then apply
the mount plan one entry at a time; on any failure run __exit__ on whatever
was accumulated so far and re-raise the original failure.  bindOk is the
oracle for the check_returncode of the emulator bind mount. -/
def qemuEnter (fs : FS) (bindOk : Bool) (planOk : Nat → Bool) (st : QemuState) :
    List Action × Except EnterError QemuState :=
  let target := qemuTargetPath st
  if fs.isfile target then
    let a := Action.mountA st.qemu target none ["bind", "ro"] st.sudoFlag
    if bindOk then
      let st1 := { st with mounted := st.mounted ++ [target] }
      let out := mountLoop planOk 0 st1 st1.mount_kwargs
      (a :: out.1, liftMountErr out.2)
    else
      (a :: qemuExitTrace st, Except.error (EnterError.bindFailed target))
  else
    let a := Action.runA ["cp", st.qemu, target] st.sudoFlag
    let st1 := { st with qemuCopied := some target }
    let out := mountLoop planOk 0 st1 st1.mount_kwargs
    (a :: out.1, liftMountErr out.2)

/-- chroot.QemuRunner._base_command: chroot, an optional userspec flag (the
per-call override wins over the session one, Python truthiness observed), then
the rootfs. -/
def qemuBaseCommand (st : QemuState) (userspec : Option String) : List String :=
  "chroot" ::
    ((if truthy userspec then ["--userspec=" ++ userspec.getD ""]
      else if truthy st.userspec then ["--userspec=" ++ st.userspec.getD ""]
      else []) ++ [st.rootfs])

/-- chroot.QemuRunner.run: the chroot-prefixed command is executed with the
session's sudo flag; the structured result is returned without checking its
exit status, and the session state is untouched.  rc is the oracle for the
command's exit status. -/
def qemuRun (st : QemuState) (command : List String) (userspec : Option String)
    (rc : Int) : QemuState × CompletedProcess :=
  (st, { args := run_argv (qemuBaseCommand st userspec ++ command) st.sudoFlag,
         returncode := rc })

/-- chroot.QemuRunner.run_script: cp the script into <rootfs>/tmp (this cp is
check_returncode'd, so a failed cp raises), then run it by its in-chroot path
with the given arguments; the script's own exit status is returned as data and
never checked.  Nothing is recorded in the session state.  cpRc and rc are the
exit-status oracles for the two commands. -/
def qemuRunScript (st : QemuState) (script : String) (options : List String)
    (userspec : Option String) (sudoFlag : Bool) (cpRc : Int) (rc : Int) :
    QemuState × Except CompletedProcess CompletedProcess :=
  let b := basename script
  let dest := pathJoin st.tmp b
  let cp : CompletedProcess :=
    { args := run_argv ["cp", script, dest] sudoFlag, returncode := cpRc }
  match check_returncode cp with
  | Except.error e => (st, Except.error e)
  | Except.ok _ =>
    let out := qemuRun st (pathJoin "/tmp" b :: options) userspec rc
    (out.1, Except.ok out.2)

/-- The session state of chroot.ProotRunner. -/
structure ProotState where
  rootfs : String
  arch : String
  scripts : List String
deriving DecidableEq

/-- chroot.ProotRunner.__init__: every unrecognized keyword argument (for
example a userspec override forwarded by chroot.main, or a qemu path) is
ignored apart from one debug log entry per key; kwargs lists the keys.
Returns the state and the debug messages that were logged. -/
def prootInit (rootfs : String) (arch : String) (kwargs : List String) :
    ProotState × List String :=
  ({ rootfs := rootfs, arch := arch, scripts := [] },
   kwargs.map (fun k => "ProotRunner ignored not implemented kwarg: " ++ k))

/-- chroot.ProotRunner.base_command: proot pinned at the rootfs with working
directory "/", plus the qemu argument only when the host machine architecture
differs from the target architecture.  machine models platform.machine(). -/
def prootBaseCommand (machine : String) (st : ProotState) : List String :=
  [PROOT, "-S", st.rootfs, "-w", "/"] ++
    (if machine != st.arch then ["-q", "qemu-" ++ st.arch ++ "-static"] else [])

/-- chroot.ProotRunner.run: the executed argv (chroot.run with sudo left at
its default False adds no prefix). -/
def prootRunArgv (machine : String) (st : ProotState) (command : List String) :
    List String :=
  prootBaseCommand machine st ++ command

def prootTmp (st : ProotState) : String := st.rootfs ++ "/tmp"

/-- chroot.ProotRunner.run_script: copy the script into <rootfs>/tmp, record
the copy for deletion at exit, and run it by its in-chroot path.  Returns the
trace, the new state, and the structured result (exit status rc, never
checked). -/
def prootRunScript (machine : String) (st : ProotState) (script : String)
    (options : List String) (rc : Int) :
    List Action × ProotState × CompletedProcess :=
  let dest := pathJoin (prootTmp st) script
  let dest_in_chroot := pathJoin "/tmp" script
  let argv := prootRunArgv machine st (dest_in_chroot :: options)
  ([Action.copyA script dest, Action.runA argv false],
   { st with scripts := st.scripts ++ [dest] },
   { args := argv, returncode := rc })

/-- chroot.ProotRunner.__exit__: attempt deletion of every staged script, in
order; each attempt's failure (rmFails oracle) is caught and logged, never
raised, so every script is attempted regardless of earlier failures.  Returns
the (attempted path, failure-was-logged) pairs. -/
def prootExit (st : ProotState) (rmFails : String → Bool) : List (String × Bool) :=
  st.scripts.map (fun s => (s, rmFails s))

/-- The state of runner.MultipassRunner. -/
structure MultipassState where
  multipass : String
  cpus : Nat
  disk : String
  mem : String
  name : String
  verbose : Nat
  image : String
  no_cleanup : Bool
deriving DecidableEq

/-- How the body of a with-block finished: normally, with an ordinary
exception, or with KeyboardInterrupt (interactive cancellation). -/
inductive ExitKind where
  | normal
  | ordinaryError
  | keyboardInterrupt
deriving DecidableEq

/-- runner.MultipassRunner.__exit__: unless cleanup is suppressed, issue the
multipass delete --purge call (its result is not checked); then suppress the
in-flight exception exactly when it is a KeyboardInterrupt (a Python context
manager suppresses when __exit__ returns True, and propagates on the implicit
None return otherwise).  Returns the issued argvs and the suppression flag. -/
def multipassExit (st : MultipassState) (exc : ExitKind) :
    List (List String) × Bool :=
  ((if st.no_cleanup then [] else [[st.multipass, "delete", "--purge", st.name]]),
   exc == ExitKind.keyboardInterrupt)

/-- runner.MultipassRunner.run: the multipass exec prefix for a command. -/
def multipassRunArgv (st : MultipassState) (command : List String) : List String :=
  st.multipass :: "exec" :: st.name :: "--" :: command

/-- runner.MultipassRunner.scriptdir: where scripts are copied to. -/
def scriptdir : String := "/tmp/scriptdir"

/-- runner.MultipassRunner.run_script: ensure the staging directory exists
(mkdir -p with the given mode, issued on every invocation), transfer the
script in, chmod +x it, and run it with the given arguments; nothing is
recorded in the session state.  Returns the issued argvs in order. -/
def multipassRunScript (st : MultipassState) (script : String)
    (args : List String) (mode : String) : List (List String) :=
  let dest := scriptdir ++ "/" ++ basename script
  [ multipassRunArgv st ["mkdir", "-p", "-m", mode, scriptdir],
    [st.multipass, "transfer", script, st.name ++ ":" ++ dest],
    multipassRunArgv st ["chmod", "+x", dest],
    multipassRunArgv st (dest :: args) ]

/-- The targets of the umount calls in a trace, in order. -/
def umountTargets (tr : List Action) : List String :=
  tr.filterMap (fun a =>
    match a with
    | Action.umountA t _ => some t
    | _ => none)

/-- The targets of the mount calls in a trace, in order. -/
def mountTargets (tr : List Action) : List String :=
  tr.filterMap (fun a =>
    match a with
    | Action.mountA _ t _ _ _ => some t
    | _ => none)

/-- Concrete fixture: a host filesystem where the emulator target path does
not pre-exist in the rootfs (copy staging applies). -/
def fsCopyW : FS :=
  { existsPath := fun _ => false, islink := fun _ => false,
    isfile := fun _ => false, isdir := fun _ => true,
    executable := fun _ => true }

/-- Concrete fixture: a host filesystem where every path is an existing
regular file (bind staging applies). -/
def fsBindW : FS :=
  { existsPath := fun _ => true, islink := fun _ => false,
    isfile := fun _ => true, isdir := fun _ => true,
    executable := fun _ => true }

/-- Concrete fixture: every mount succeeds. -/
def okAllW : Nat → Bool := fun _ => true

/-- Concrete fixture: mount step 0 succeeds, step 1 fails. -/
def failAt1W : Nat → Bool := fun n => n == 0

def kwSysW : MountKw :=
  { source := "sysfs", target := "/r/sys", type? := some "sysfs", options := ["ro"] }

def kwProcW : MountKw :=
  { source := "proc", target := "/r/proc", type? := some "proc", options := [] }

/-- Concrete fixture: a freshly constructed QemuRunner session on rootfs /r
with a two-entry mount plan. -/
def qemuStW : QemuState :=
  { rootfs := "/r", arch := "aarch64", qemu := "/usr/bin/qemu-aarch64-static",
    mount_kwargs := [kwSysW, kwProcW], userspec := none, tmp := "/r/tmp",
    sudoFlag := true, qemuCopied := none, mounted := [] }

/-- The fixture session after a successful copy-staged enter. -/
def qemuStW' : QemuState :=
  { qemuStW with
    qemuCopied := some "/r/usr/bin/qemu-aarch64-static",
    mounted := ["/r/sys", "/r/proc"] }

/-- The trace of a successful copy-staged enter on the fixture session. -/
def enterTraceW : List Action :=
  [ Action.runA ["cp", "/usr/bin/qemu-aarch64-static",
      "/r/usr/bin/qemu-aarch64-static"] true,
    Action.mountA "sysfs" "/r/sys" (some "sysfs") ["ro"] true,
    Action.mountA "proc" "/r/proc" (some "proc") [] true ]

/-- Concrete fixture: a host filesystem where every path exists, /r/etc/resolv.conf
included, and nothing is a symbolic link. -/
def fsEtcW : FS :=
  { existsPath := fun _ => true, islink := fun _ => false,
    isfile := fun _ => true, isdir := fun _ => true,
    executable := fun _ => true }

/-- Concrete fixture: a valid rootfs directory tree on an otherwise fully
populated host. -/
def fsGoodW : FS :=
  { existsPath := fun _ => true, islink := fun _ => false,
    isfile := fun _ => true, isdir := fun _ => true,
    executable := fun _ => true }

/-- Concrete fixture: shutil.which finds nothing. -/
def whichNoneW : String → Option String := fun _ => none

/-- Concrete fixture: shutil.which resolves the qemu static binary. -/
def whichQemuW : String → Option String := fun _ => some "/usr/bin/qemu-aarch64-static"

/-- Concrete fixture: the session state produced by constructing a QemuRunner
as the non-root user alice. -/
def qemuAliceW : QemuState :=
  { rootfs := "/r", arch := "aarch64", qemu := "/usr/bin/qemu-aarch64-static",
    mount_kwargs := [kwSysW], userspec := none, tmp := "/r/tmp",
    sudoFlag := true, qemuCopied := none, mounted := [] }

/-- Concrete fixture: the same session constructed as root. -/
def qemuRootW : QemuState := { qemuAliceW with sudoFlag := false }

/-- Concrete fixture: a fresh session with a single plan entry, in a rootfs
where the emulator target pre-exists (bind staging applies). -/
def qemuStBindW : QemuState := { qemuStW with mount_kwargs := [kwSysW] }

/-- The bind-staged fixture session after a successful enter. -/
def qemuStBindW2 : QemuState :=
  { qemuStW with
    mount_kwargs := [kwSysW],
    mounted := ["/r/usr/bin/qemu-aarch64-static", "/r/sys"] }

/-- Concrete fixture: a MultipassRunner session with cleanup enabled. -/
def multipassStW : MultipassState :=
  { multipass := "/usr/bin/multipass", cpus := 4, disk := "64G", mem := "8G",
    name := "tib", verbose := 0, image := "18.04", no_cleanup := false }

/-- The staging-directory creation call issued by the Multipass fixture. -/
def mkdirCallW : List String :=
  ["/usr/bin/multipass", "exec", "tib", "--", "mkdir", "-p", "-m", "700",
   "/tmp/scriptdir"]

theorem umountTargets_append (a b : List Action) :
    umountTargets (a ++ b) = umountTargets a ++ umountTargets b := by
  simp [umountTargets]

theorem mountTargets_append (a b : List Action) :
    mountTargets (a ++ b) = mountTargets a ++ mountTargets b := by
  simp [mountTargets]

theorem umountTargets_map_umount (l : List String) (s : Bool) :
    umountTargets (l.map (fun t => Action.umountA t s)) = l := by
  induction l with
  | nil => rfl
  | cons x xs ih => simpa [umountTargets, List.filterMap_cons] using ih

theorem mountTargets_map_umount (l : List String) (s : Bool) :
    mountTargets (l.map (fun t => Action.umountA t s)) = [] := by
  induction l with
  | nil => rfl
  | cons x xs ih => simp [mountTargets, List.filterMap_cons, ih]

theorem umountTargets_cons (a : Action) (tr : List Action) :
    umountTargets (a :: tr) =
      (match a with | Action.umountA t _ => [t] | _ => []) ++ umountTargets tr := by
  cases a <;> simp [umountTargets, List.filterMap_cons]

theorem mountTargets_cons (a : Action) (tr : List Action) :
    mountTargets (a :: tr) =
      (match a with | Action.mountA _ t _ _ _ => [t] | _ => []) ++ mountTargets tr := by
  cases a <;> simp [mountTargets, List.filterMap_cons]

theorem umountTargets_map_umount_rev (l : List String) (s : Bool) :
    umountTargets ((l.map (fun t => Action.umountA t s)).reverse) = l.reverse := by
  rw [← List.map_reverse]
  exact umountTargets_map_umount l.reverse s

theorem mountTargets_map_umount_rev (l : List String) (s : Bool) :
    mountTargets ((l.map (fun t => Action.umountA t s)).reverse) = [] := by
  rw [← List.map_reverse]
  exact mountTargets_map_umount l.reverse s

theorem umountTargets_exit (st : QemuState) :
    umountTargets (qemuExitTrace st) = st.mounted.reverse := by
  cases h : st.qemuCopied <;>
    simp [qemuExitTrace, h, umountTargets_append, umountTargets_cons,
      umountTargets_map_umount, umountTargets_map_umount_rev]

theorem mountTargets_exit (st : QemuState) :
    mountTargets (qemuExitTrace st) = [] := by
  cases h : st.qemuCopied <;>
    simp [qemuExitTrace, h, mountTargets_append, mountTargets_cons,
      mountTargets_map_umount, mountTargets_map_umount_rev]

theorem umountTargets_mounts (l : List MountKw) (s : Bool) :
    umountTargets (l.map (actionOfKw s)) = [] := by
  induction l with
  | nil => rfl
  | cons x xs ih => simp [umountTargets, actionOfKw, List.filterMap_cons, ih]

theorem mountTargets_mounts (l : List MountKw) (s : Bool) :
    mountTargets (l.map (actionOfKw s)) = l.map MountKw.target := by
  induction l with
  | nil => rfl
  | cons x xs ih => simpa [mountTargets, actionOfKw, List.filterMap_cons] using ih

theorem mountTargets_take_mounts (l : List MountKw) (s : Bool) (n : Nat) :
    mountTargets ((l.map (actionOfKw s)).take n) = (l.map MountKw.target).take n := by
  rw [← List.map_take, ← List.map_take]
  exact mountTargets_mounts (l.take n) s

theorem umountTargets_take_mounts (l : List MountKw) (s : Bool) (n : Nat) :
    umountTargets ((l.map (actionOfKw s)).take n) = [] := by
  rw [← List.map_take]
  exact umountTargets_mounts (l.take n) s

theorem liftMountErr_ok (e : Except (Nat × String) QemuState) (s : QemuState) :
    liftMountErr e = Except.ok s ↔ e = Except.ok s := by
  cases e <;> simp [liftMountErr]

theorem mountLoop_ok_inv (planOk : Nat → Bool) :
    ∀ (plan : List MountKw) (i : Nat) (st : QemuState) (tr : List Action)
      (st' : QemuState),
      mountLoop planOk i st plan = (tr, Except.ok st') →
      tr = plan.map (actionOfKw st.sudoFlag) ∧
      st' = { st with mounted := st.mounted ++ plan.map MountKw.target } := by
  intro plan
  induction plan with
  | nil =>
    intro i st tr st' h
    simp [mountLoop] at h
    obtain ⟨h1, h2⟩ := h
    subst h1
    subst h2
    simp
  | cons kw rest ih =>
    intro i st tr st' h
    by_cases hok : planOk i = true
    · rcases h2 : mountLoop planOk (i + 1)
        { st with mounted := st.mounted ++ [kw.target] } rest with ⟨tr2, r2⟩
      simp [mountLoop, hok, h2] at h
      obtain ⟨htr, hr⟩ := h
      obtain ⟨htr2, hst⟩ := ih (i + 1) _ tr2 st' (by rw [h2, hr])
      constructor
      · rw [← htr, htr2]
        simp
      · rw [hst]
        simp
    · simp [mountLoop, hok] at h


theorem mountLoop_fail (planOk : Nat → Bool) :
    ∀ (plan : List MountKw) (j : Nat) (hj : j < plan.length) (i : Nat) (st : QemuState),
      (∀ m, m < j → planOk (i + m) = true) → planOk (i + j) = false →
      mountLoop planOk i st plan =
        ((plan.take (j + 1)).map (actionOfKw st.sudoFlag) ++
           qemuExitTrace
             { st with mounted := st.mounted ++ (plan.take j).map MountKw.target },
         Except.error (i + j, (plan.get ⟨j, hj⟩).target)) := by
  intro plan
  induction plan with
  | nil =>
    intro j hj
    exact absurd hj (by simp)
  | cons kw rest ih =>
    intro j hj i st hok hfail
    cases j with
    | zero =>
      have h0 : planOk i = false := by simpa using hfail
      simp [mountLoop, h0]
    | succ j' =>
      have h0 : planOk i = true := by
        have h1 := hok 0 (Nat.succ_pos j')
        simpa using h1
      have hj' : j' < rest.length := by
        simpa using Nat.lt_of_succ_lt_succ hj
      have hok' : ∀ m, m < j' → planOk (i + 1 + m) = true := by
        intro m hm
        have h1 := hok (m + 1) (Nat.succ_lt_succ hm)
        have h2 : i + 1 + m = i + (m + 1) := by omega
        rw [h2]
        exact h1
      have hfail' : planOk (i + 1 + j') = false := by
        have h2 : i + 1 + j' = i + (j' + 1) := by omega
        rw [h2]
        exact hfail
      have hrec := ih j' hj' (i + 1)
        { st with mounted := st.mounted ++ [kw.target] } hok' hfail'
      simp only [mountLoop, h0, if_true, hrec]
      have hidx : i + 1 + j' = i + (j' + 1) := by omega
      simp [List.take_succ_cons, actionOfKw, List.append_assoc, hidx]

theorem qemuEnter_ok_inv (fs : FS) (bindOk : Bool) (planOk : Nat → Bool)
    (st : QemuState) (tr : List Action) (st' : QemuState)
    (he : qemuEnter fs bindOk planOk st = (tr, Except.ok st')) :
    (fs.isfile (qemuTargetPath st) = true →
       tr = Action.mountA st.qemu (qemuTargetPath st) none ["bind", "ro"] st.sudoFlag ::
              st.mount_kwargs.map (actionOfKw st.sudoFlag) ∧
       st' = { st with
               mounted := st.mounted ++ [qemuTargetPath st] ++
                 st.mount_kwargs.map MountKw.target }) ∧
    (fs.isfile (qemuTargetPath st) = false →
       tr = Action.runA ["cp", st.qemu, qemuTargetPath st] st.sudoFlag ::
              st.mount_kwargs.map (actionOfKw st.sudoFlag) ∧
       st' = { st with
               qemuCopied := some (qemuTargetPath st),
               mounted := st.mounted ++ st.mount_kwargs.map MountKw.target }) := by
  constructor
  · intro hf
    cases hb : bindOk with
    | false =>
      rw [hb] at he
      simp [qemuEnter, hf] at he
    | true =>
      rw [hb] at he
      rcases hml : mountLoop planOk 0
          { st with mounted := st.mounted ++ [qemuTargetPath st] }
          st.mount_kwargs with ⟨tr2, r2⟩
      simp only [qemuEnter, hf, if_true, hml] at he
      rw [Prod.mk.injEq] at he
      obtain ⟨htr, hr⟩ := he
      rw [liftMountErr_ok] at hr
      obtain ⟨htr2, hst⟩ := mountLoop_ok_inv planOk st.mount_kwargs 0 _ tr2 st' (by rw [hml, hr])
      constructor
      · rw [← htr, htr2]
      · rw [hst]
  · intro hf
    rcases hml : mountLoop planOk 0
        { st with qemuCopied := some (qemuTargetPath st) }
        st.mount_kwargs with ⟨tr2, r2⟩
    simp only [qemuEnter, hf, Bool.false_eq_true, if_false, hml] at he
    rw [Prod.mk.injEq] at he
    obtain ⟨htr, hr⟩ := he
    rw [liftMountErr_ok] at hr
    obtain ⟨htr2, hst⟩ := mountLoop_ok_inv planOk st.mount_kwargs 0 _ tr2 st' (by rw [hml, hr])
    constructor
    · rw [← htr, htr2]
    · rw [hst]

/-- C1: for a privileged sandbox session whose enter succeeded, the recorded
list of successfully applied mounts is the emulator bind target (when staging
bind-mounted) followed by the plan targets in application order; exit issues
its unmount calls in exactly the reverse of that recorded list, and never
unmounts any target outside the recorded list. -/
theorem C1_exit_unmounts_reverse (fs : FS) (bindOk : Bool) (planOk : Nat → Bool)
    (st : QemuState) (tr : List Action) (st' : QemuState)
    (hm : st.mounted = [])
    (he : qemuEnter fs bindOk planOk st = (tr, Except.ok st')) :
    st'.mounted = (if fs.isfile (qemuTargetPath st) then [qemuTargetPath st] else []) ++
      st.mount_kwargs.map MountKw.target ∧
    umountTargets (qemuExitTrace st') = st'.mounted.reverse ∧
    (∀ t, t ∈ umountTargets (qemuExitTrace st') → t ∈ st'.mounted) := by
  obtain ⟨hbind, hcopy⟩ := qemuEnter_ok_inv fs bindOk planOk st tr st' he
  have hmain : st'.mounted =
      (if fs.isfile (qemuTargetPath st) then [qemuTargetPath st] else []) ++
        st.mount_kwargs.map MountKw.target := by
    cases hf : fs.isfile (qemuTargetPath st) with
    | true =>
      obtain ⟨_, hst⟩ := hbind hf
      rw [hst]
      simp [hm]
    | false =>
      obtain ⟨_, hst⟩ := hcopy hf
      rw [hst]
      simp [hm]
  refine ⟨hmain, umountTargets_exit st', ?_⟩
  intro t ht
  rw [umountTargets_exit st'] at ht
  exact List.mem_reverse.mp ht

/-- Witness for C1 at the concrete fixture session: the hypotheses hold and
the teardown unmount order is the reverse of the recorded mounts. -/
theorem C1_witness :
    qemuStW.mounted = [] ∧
    qemuEnter fsCopyW true okAllW qemuStW = (enterTraceW, Except.ok qemuStW') ∧
    umountTargets (qemuExitTrace qemuStW') = qemuStW'.mounted.reverse :=
  ⟨rfl, by decide,
   (C1_exit_unmounts_reverse fsCopyW true okAllW qemuStW enterTraceW qemuStW'
     rfl (by decide)).2.1⟩

/-- C2: if, with emulator staging successful, the j-th configured mount
(0-indexed; the claim's 1-indexed i is j + 1) fails during enter, then the
mounts attempted are exactly the staging bind (when bind-staged) plus plan
steps 0..j — no plan step beyond the failing one is attempted — the unmount
calls of the immediate teardown are exactly the successfully applied mounts
(the staging bind, if any, plus the first j plan targets) in reverse order,
and the failing step's own failure is what is surfaced to the caller. -/
theorem C2_failed_step_rollback (fs : FS) (bindOk : Bool) (planOk : Nat → Bool)
    (st : QemuState) (j : Nat) (hj : j < st.mount_kwargs.length)
    (hm : st.mounted = [])
    (hstage : fs.isfile (qemuTargetPath st) = false ∨ bindOk = true)
    (hok : ∀ m, m < j → planOk m = true) (hfail : planOk j = false) :
    mountTargets (qemuEnter fs bindOk planOk st).1 =
      (if fs.isfile (qemuTargetPath st) then [qemuTargetPath st] else []) ++
        (st.mount_kwargs.take (j + 1)).map MountKw.target ∧
    umountTargets (qemuEnter fs bindOk planOk st).1 =
      ((if fs.isfile (qemuTargetPath st) then [qemuTargetPath st] else []) ++
        (st.mount_kwargs.take j).map MountKw.target).reverse ∧
    (qemuEnter fs bindOk planOk st).2 =
      Except.error (EnterError.mountFailed j (st.mount_kwargs.get ⟨j, hj⟩).target) := by
  have hok0 : ∀ m, m < j → planOk (0 + m) = true := by
    intro m hmlt
    rw [Nat.zero_add]
    exact hok m hmlt
  have hfail0 : planOk (0 + j) = false := by
    rw [Nat.zero_add]
    exact hfail
  cases hf : fs.isfile (qemuTargetPath st) with
  | false =>
    have hml := mountLoop_fail planOk st.mount_kwargs j hj 0
      { st with qemuCopied := some (qemuTargetPath st) } hok0 hfail0
    have hgoal : qemuEnter fs bindOk planOk st =
        (Action.runA ["cp", st.qemu, qemuTargetPath st] st.sudoFlag ::
          ((st.mount_kwargs.take (j + 1)).map (actionOfKw st.sudoFlag) ++
            qemuExitTrace
              { st with
                qemuCopied := some (qemuTargetPath st),
                mounted := st.mounted ++ (st.mount_kwargs.take j).map MountKw.target }),
         Except.error
           (EnterError.mountFailed (0 + j) (st.mount_kwargs.get ⟨j, hj⟩).target)) := by
      simp only [qemuEnter, hf, Bool.false_eq_true, if_false]
      rw [hml]
      rfl
    refine ⟨?_, ?_, ?_⟩ <;> rw [hgoal] <;>
      simp [mountTargets_cons, mountTargets_append, mountTargets_mounts,
        mountTargets_take_mounts, mountTargets_exit, umountTargets_cons,
        umountTargets_append, umountTargets_mounts, umountTargets_take_mounts,
        umountTargets_exit, hf, hm]
  | true =>
    cases hstage with
    | inl h => exact absurd hf (by rw [h]; exact Bool.false_ne_true)
    | inr hb =>
      rw [hb]
      have hml := mountLoop_fail planOk st.mount_kwargs j hj 0
        { st with mounted := st.mounted ++ [qemuTargetPath st] } hok0 hfail0
      have hgoal : qemuEnter fs true planOk st =
          (Action.mountA st.qemu (qemuTargetPath st) none ["bind", "ro"] st.sudoFlag ::
            ((st.mount_kwargs.take (j + 1)).map (actionOfKw st.sudoFlag) ++
              qemuExitTrace
                { st with
                  mounted := st.mounted ++ [qemuTargetPath st] ++
                    (st.mount_kwargs.take j).map MountKw.target }),
           Except.error
             (EnterError.mountFailed (0 + j) (st.mount_kwargs.get ⟨j, hj⟩).target)) := by
        simp only [qemuEnter, hf, if_true]
        rw [hml]
        rfl
      refine ⟨?_, ?_, ?_⟩ <;> rw [hgoal] <;>
        simp [mountTargets_cons, mountTargets_append, mountTargets_mounts,
          mountTargets_take_mounts, mountTargets_exit, umountTargets_cons,
          umountTargets_append, umountTargets_mounts, umountTargets_take_mounts,
          umountTargets_exit, hf, hm]

/-- Witness for C2 at the concrete fixture session: mount step 1 fails, step 0
alone is unmounted, and the failing step is the surfaced error. -/
theorem C2_witness :
    (1 : Nat) < qemuStW.mount_kwargs.length ∧
    umountTargets (qemuEnter fsCopyW true failAt1W qemuStW).1 = ["/r/sys"] ∧
    (qemuEnter fsCopyW true failAt1W qemuStW).2 =
      Except.error (EnterError.mountFailed 1 "/r/proc") := by
  have h := C2_failed_step_rollback fsCopyW true failAt1W qemuStW 1 (by decide)
    rfl (Or.inl (by decide))
    (by
      intro m hmlt
      have hm0 : m = 0 := Nat.lt_one_iff.mp hmlt
      rw [hm0]
      rfl)
    rfl
  exact ⟨by decide, h.2.1.trans (by decide), h.2.2.trans (by decide)⟩

/-- C3: for a MultipassRunner session whose cleanup-suppression flag is unset,
exit issues exactly the VM delete-and-purge call on every exit path (normal
completion, ordinary error, interactive cancellation); the in-flight exception
is suppressed exactly when it is a KeyboardInterrupt, so an ordinary error
propagates to the caller after the deletion call while an interactive
cancellation yields a clean, non-error shutdown. -/
theorem C3_vm_cleanup (st : MultipassState) (exc : ExitKind)
    (h : st.no_cleanup = false) :
    (multipassExit st exc).1 = [[st.multipass, "delete", "--purge", st.name]] ∧
    ((multipassExit st exc).2 = true ↔ exc = ExitKind.keyboardInterrupt) := by
  constructor
  · simp [multipassExit, h]
  · cases exc <;> simp [multipassExit]

/-- Witness for C3: with cleanup enabled and an ordinary error in flight, the
fixture session issues the delete-and-purge call and does not suppress. -/
theorem C3_witness :
    multipassStW.no_cleanup = false ∧
    (multipassExit multipassStW ExitKind.ordinaryError).1 =
      [["/usr/bin/multipass", "delete", "--purge", "tib"]] ∧
    (multipassExit multipassStW ExitKind.ordinaryError).2 = false :=
  ⟨rfl,
   (C3_vm_cleanup multipassStW ExitKind.ordinaryError rfl).1.trans (by decide),
   by decide⟩

/-- C4: for every rootfs the computed mount plan contains, in this exact
order, sysfs on <root>/sys, proc on <root>/proc, a read-only bind of /dev on
<root>/dev, devpts on <root>/dev/pts and tmpfs on <root>/tmp; the final bind
of host /etc/resolv.conf targets <root>/run/resolvconf/resolv.conf exactly
when that file exists and <root>/etc/resolv.conf is a symbolic link, targets
<root>/etc/resolv.conf exactly when that file exists and is not a symbolic
link, and in every other layout the entry is omitted and the warning is
emitted — no other layout triggers the bind. -/
theorem C4_mount_plan (fs : FS) (rootfs : String) :
    (default_mount_kwargs fs rootfs).plan.take 5 = fixedMounts rootfs ∧
    (fs.existsPath (rootfs ++ "/run/resolvconf/resolv.conf") = true ∧
        fs.islink (rootfs ++ "/etc/resolv.conf") = true →
      default_mount_kwargs fs rootfs =
        { plan := fixedMounts rootfs ++
            [resolvKw (rootfs ++ "/run/resolvconf/resolv.conf")],
          warned := false }) ∧
    (fs.islink (rootfs ++ "/etc/resolv.conf") = false ∧
        fs.existsPath (rootfs ++ "/etc/resolv.conf") = true →
      default_mount_kwargs fs rootfs =
        { plan := fixedMounts rootfs ++ [resolvKw (rootfs ++ "/etc/resolv.conf")],
          warned := false }) ∧
    ((fs.existsPath (rootfs ++ "/run/resolvconf/resolv.conf") &&
        fs.islink (rootfs ++ "/etc/resolv.conf")) = false ∧
      (fs.existsPath (rootfs ++ "/etc/resolv.conf") &&
        !fs.islink (rootfs ++ "/etc/resolv.conf")) = false →
      default_mount_kwargs fs rootfs =
        { plan := fixedMounts rootfs, warned := true }) := by
  refine ⟨?_, ?_, ?_, ?_⟩
  · cases h1 : fs.existsPath (rootfs ++ "/run/resolvconf/resolv.conf") <;>
    cases h2 : fs.islink (rootfs ++ "/etc/resolv.conf") <;>
    cases h3 : fs.existsPath (rootfs ++ "/etc/resolv.conf") <;>
      simp [default_mount_kwargs, h1, h2, h3, fixedMounts]
  · rintro ⟨h1, h2⟩
    simp [default_mount_kwargs, h1, h2]
  · rintro ⟨h2, h3⟩
    simp [default_mount_kwargs, h2, h3]
  · rintro ⟨hA, hB⟩
    simp only [default_mount_kwargs, hA, hB, Bool.false_eq_true, if_false]

/-- Witness for C4 at a literal fixture layout: /r/etc/resolv.conf exists and
is not a symbolic link, so the plan ends with the bind onto it. -/
theorem C4_witness :
    (fsEtcW.islink ("/r" ++ "/etc/resolv.conf") = false ∧
      fsEtcW.existsPath ("/r" ++ "/etc/resolv.conf") = true) ∧
    default_mount_kwargs fsEtcW "/r" =
      { plan := fixedMounts "/r" ++ [resolvKw ("/r" ++ "/etc/resolv.conf")],
        warned := false } :=
  ⟨⟨rfl, rfl⟩, (C4_mount_plan fsEtcW "/r").2.2.1 ⟨rfl, rfl⟩⟩

theorem qemuRunScript_state (st : QemuState) (script : String) (opts : List String)
    (us : Option String) (sf : Bool) (cpRc rc : Int) :
    (qemuRunScript st script opts us sf cpRc rc).1 = st := by
  cases h : check_returncode
      { args := run_argv ["cp", script, pathJoin st.tmp (basename script)] sf,
        returncode := cpRc } <;>
    simp [qemuRunScript, h, qemuRun]

/-- C5 (amended): during enter, a pre-existing emulator target file is
bind-mounted over read-only (no copy is issued, the file is never overwritten)
with the staging record left empty, else the binary is copied in and recorded;
on exit exactly one of the two teardown actions runs, never both — in the
copied case the rm of the copied binary precedes every unmount, while in the
bind-mounted case the emulator bind is the first recorded mount and is
therefore unmounted last, as part of the reverse-order unmount pass, not
before it; exit consists of nothing but that rm and the unmount calls, and
run_script records nothing in the session state, so no staged script is
deleted at exit. -/
theorem C5_staging_teardown (fs : FS) (bindOk : Bool) (planOk : Nat → Bool)
    (st : QemuState) (tr : List Action) (st2 : QemuState)
    (hm : st.mounted = []) (hq : st.qemuCopied = none)
    (he : qemuEnter fs bindOk planOk st = (tr, Except.ok st2)) :
    (fs.isfile (qemuTargetPath st) = true →
       tr = Action.mountA st.qemu (qemuTargetPath st) none ["bind", "ro"] st.sudoFlag ::
             st.mount_kwargs.map (actionOfKw st.sudoFlag) ∧
       st2.qemuCopied = none ∧
       qemuExitTrace st2 =
         ((qemuTargetPath st :: st.mount_kwargs.map MountKw.target).reverse).map
           (fun t => Action.umountA t st.sudoFlag) ∧
       (qemuExitTrace st2).getLast? =
         some (Action.umountA (qemuTargetPath st) st.sudoFlag)) ∧
    (fs.isfile (qemuTargetPath st) = false →
       tr = Action.runA ["cp", st.qemu, qemuTargetPath st] st.sudoFlag ::
             st.mount_kwargs.map (actionOfKw st.sudoFlag) ∧
       st2.qemuCopied = some (qemuTargetPath st) ∧
       qemuExitTrace st2 =
         Action.runA ["rm", qemuTargetPath st] st.sudoFlag ::
           (st.mount_kwargs.map MountKw.target).reverse.map
             (fun t => Action.umountA t st.sudoFlag)) ∧
    (∀ script opts us sf cpRc rc,
       (qemuRunScript st2 script opts us sf cpRc rc).1 = st2) := by
  obtain ⟨hbind, hcopy⟩ := qemuEnter_ok_inv fs bindOk planOk st tr st2 he
  refine ⟨?_, ?_, fun script opts us sf cpRc rc => qemuRunScript_state st2 script opts us sf cpRc rc⟩
  · intro hf
    obtain ⟨htr, hst⟩ := hbind hf
    have hqc : st2.qemuCopied = none := by rw [hst]; exact hq
    have hexit : qemuExitTrace st2 =
        ((qemuTargetPath st :: st.mount_kwargs.map MountKw.target).reverse).map
          (fun t => Action.umountA t st.sudoFlag) := by
      rw [hst]
      simp [qemuExitTrace, hq, hm]
    refine ⟨htr, hqc, hexit, ?_⟩
    rw [hexit]
    simp
  · intro hf
    obtain ⟨htr, hst⟩ := hcopy hf
    refine ⟨htr, by rw [hst], ?_⟩
    rw [hst]
    simp [qemuExitTrace, hm]

/-- Counterexample for C5 at a concrete bind-staged session with one plan
mount and one staged script: the first teardown call of exit is the unmount of
the plan mount /r/sys, so the emulator teardown does not happen before the
ActiveMountList unmount pass but last inside it, and the exit trace contains
no deletion of the staged script (run_script recorded nothing), contrary to
the claimed ordering and the claimed StagedScript deletion. -/
theorem C5_counterexample :
    qemuEnter fsBindW true okAllW qemuStBindW =
      ([Action.mountA "/usr/bin/qemu-aarch64-static"
          "/r/usr/bin/qemu-aarch64-static" none ["bind", "ro"] true,
        Action.mountA "sysfs" "/r/sys" (some "sysfs") ["ro"] true],
       Except.ok qemuStBindW2) ∧
    qemuExitTrace qemuStBindW2 =
      [Action.umountA "/r/sys" true,
       Action.umountA "/r/usr/bin/qemu-aarch64-static" true] ∧
    (qemuExitTrace qemuStBindW2).head? ≠
      some (Action.umountA "/r/usr/bin/qemu-aarch64-static" true) ∧
    (qemuRunScript qemuStBindW2 "/host/foo.sh" [] none false 0 0).1 = qemuStBindW2 ∧
    Action.runA ["rm", "/r/tmp/foo.sh"] true ∉ qemuExitTrace qemuStBindW2 :=
  ⟨by decide, by decide, by decide, by decide, by decide⟩

/-- Witness for C5 at the bind-staged fixture: the hypotheses hold and the
emulator bind is unmounted last, after the plan mounts. -/
theorem C5_witness :
    qemuStBindW.mounted = [] ∧ qemuStBindW.qemuCopied = none ∧
    fsBindW.isfile (qemuTargetPath qemuStBindW) = true ∧
    (qemuExitTrace qemuStBindW2).getLast? =
      some (Action.umountA (qemuTargetPath qemuStBindW) qemuStBindW.sudoFlag) :=
  ⟨rfl, rfl, rfl,
   ((C5_staging_teardown fsBindW true okAllW qemuStBindW
       [Action.mountA "/usr/bin/qemu-aarch64-static"
          "/r/usr/bin/qemu-aarch64-static" none ["bind", "ro"] true,
        Action.mountA "sysfs" "/r/sys" (some "sysfs") ["ro"] true]
       qemuStBindW2 rfl rfl (by decide)).1 rfl).2.2.2⟩

/-- Counterexample for C6 at a concrete MultipassRunner session: two
run_script invocations in the same session issue the staging-directory
creation call (multipass exec tib -- mkdir -p -m 700 /tmp/scriptdir) twice,
not once. -/
theorem C6_counterexample :
    (multipassRunScript multipassStW "a.sh" [] "700" ++
      multipassRunScript multipassStW "b.sh" [] "700").count mkdirCallW = 2 ∧
    ¬ (multipassRunScript multipassStW "a.sh" [] "700" ++
        multipassRunScript multipassStW "b.sh" [] "700").count mkdirCallW = 1 :=
  ⟨by decide, by decide⟩

/-- C6 (amended): MultipassRunner.run_script issues the idempotent
staging-directory creation call on every invocation — it is the first command
of each invocation's trace, so two invocations issue two creation calls — and
records nothing for later deletion; ProotRunner.run_script issues no creation
call (one copy and one execution only) and tracks each staged script
individually, and ProotRunner exit attempts deletion of every tracked script
independently of any deletion failure (each failure is caught and logged,
never raised). -/
theorem C6_script_staging (st : MultipassState) (script : String)
    (args : List String) (mode : String) (machine : String) (pst : ProotState)
    (s1 s2 : String) (o1 o2 : List String) (rc1 rc2 : Int) :
    (multipassRunScript st script args mode).head? =
      some (multipassRunArgv st ["mkdir", "-p", "-m", mode, scriptdir]) ∧
    (prootRunScript machine pst s1 o1 rc1).1 =
      [Action.copyA s1 (pathJoin (prootTmp pst) s1),
       Action.runA (prootRunArgv machine pst (pathJoin "/tmp" s1 :: o1)) false] ∧
    ((prootRunScript machine ((prootRunScript machine pst s1 o1 rc1).2.1)
        s2 o2 rc2).2.1).scripts =
      pst.scripts ++ [pathJoin (prootTmp pst) s1, pathJoin (prootTmp pst) s2] ∧
    (∀ rmFails : String → Bool,
      (prootExit ((prootRunScript machine ((prootRunScript machine pst s1 o1 rc1).2.1)
          s2 o2 rc2).2.1) rmFails).map Prod.fst =
        pst.scripts ++ [pathJoin (prootTmp pst) s1, pathJoin (prootTmp pst) s2]) := by
  refine ⟨rfl, rfl, ?_, ?_⟩
  · simp [prootRunScript, prootTmp]
  · intro rmFails
    simp [prootExit, prootRunScript, prootTmp, Function.comp_def]

/-- C7: the code slip behind the claim — with a valid rootfs and the default
aarch64 architecture, when the emulator binary is not resolvable on the host
search path (shutil.which returns None), QemuRunner.__init__ evaluates
os.path.isfile(None), which raises TypeError (os.stat(None) raises TypeError
and genericpath.isfile catches only OSError and ValueError), never reaching
the intended FileNotFoundError branch directly below it. -/
theorem C7_unresolvable_emulator_typeerror :
    qemuInit fsGoodW whichNoneW "user" "/r" (some ARCH) none none none none =
      Except.error (InitError.typeError
        "stat: path should be string, bytes, os.PathLike or integer, not NoneType") ∧
    (∀ msg : String,
      qemuInit fsGoodW whichNoneW "user" "/r" (some ARCH) none none none none ≠
        Except.error (InitError.fileNotFound msg)) := by
  have h : qemuInit fsGoodW whichNoneW "user" "/r" (some ARCH) none none none none =
      Except.error (InitError.typeError
        "stat: path should be string, bytes, os.PathLike or integer, not NoneType") := by
    decide
  refine ⟨h, ?_⟩
  intro msg hcontra
  rw [h] at hcontra
  exact InitError.noConfusion (Except.error.inj hcontra)

/-- C8: a command's or script's nonzero exit status is returned to the caller
inside the structured result and never raised automatically: run returns the
CompletedProcess unchecked and leaves the session state untouched, and
run_script (its staging cp having succeeded) returns the script's own exit
status — status 1 included — as data inside Except.ok, with the session state
unchanged and hence still open for subsequent calls. -/
theorem C8_nonzero_returned (st : QemuState) (script : String)
    (options : List String) (us : Option String) (sf : Bool) (rc : Int)
    (command : List String) (rc2 : Int) :
    (qemuRun st command us rc2).1 = st ∧
    (qemuRun st command us rc2).2.returncode = rc2 ∧
    (qemuRunScript st script options us sf 0 rc).1 = st ∧
    (qemuRunScript st script options us sf 0 rc).2 =
      Except.ok
        { args := run_argv (qemuBaseCommand st us ++
            (pathJoin "/tmp" (basename script) :: options)) st.sudoFlag,
          returncode := rc } := by
  refine ⟨rfl, rfl, ?_, ?_⟩ <;>
    simp [qemuRunScript, check_returncode, qemuRun]

/-- Counterexample for C9: two QemuRunner constructions with identical caller
inputs, differing only in the ambient identity of the invoking user, issue
differently elevated commands — the non-root session sudo-prefixes every
chroot invocation and the root session never does — so elevation is inferred
from ambient state, not chosen per call by the caller. -/
theorem C9_counterexample :
    qemuInit fsGoodW whichQemuW "alice" "/r" (some ARCH) none (some [kwSysW])
        none none = Except.ok qemuAliceW ∧
    qemuInit fsGoodW whichQemuW "root" "/r" (some ARCH) none (some [kwSysW])
        none none = Except.ok qemuRootW ∧
    qemuAliceW.sudoFlag = true ∧ qemuRootW.sudoFlag = false ∧
    (qemuRun qemuAliceW ["true"] none 0).2.args = ["sudo", "chroot", "/r", "true"] ∧
    (qemuRun qemuRootW ["true"] none 0).2.args = ["chroot", "/r", "true"] :=
  ⟨by decide, by decide, rfl, rfl, by decide, by decide⟩

/-- C9 (amended): the low-level command executor takes elevation as an
explicit per-call flag — the executed argv is sudo-prefixed iff the flag is
set — but a QemuRunner session fixes that flag once at construction from the
ambient user identity (elevate iff the invoking user is not root) and applies
it to every command it issues. -/
theorem C9_sudo_inferred_from_user (cmd : List String) (fs : FS)
    (which : String → Option String) (user : String) (rootfs : String)
    (arch qemu : Option String) (mk addm : Option (List MountKw))
    (us : Option String) (st : QemuState)
    (h : qemuInit fs which user rootfs arch qemu mk addm us = Except.ok st) :
    run_argv cmd true = "sudo" :: cmd ∧
    run_argv cmd false = cmd ∧
    st.sudoFlag = (user != "root") ∧
    (∀ c usp rc, (qemuRun st c usp rc).2.args =
       run_argv (qemuBaseCommand st usp ++ c) st.sudoFlag) := by
  refine ⟨rfl, rfl, ?_, fun c usp rc => rfl⟩
  simp only [qemuInit] at h
  repeat' first
    | exact Except.noConfusion h
    | (injection h with h2; rw [← h2])
    | split at h

/-- Witness for C9 (amended) at the alice fixture construction. -/
theorem C9_witness :
    qemuInit fsGoodW whichQemuW "alice" "/r" (some ARCH) none (some [kwSysW])
        none none = Except.ok qemuAliceW ∧
    qemuAliceW.sudoFlag = ("alice" != "root") :=
  ⟨by decide,
   (C9_sudo_inferred_from_user ["true"] fsGoodW whichQemuW "alice" "/r"
      (some ARCH) none (some [kwSysW]) none none qemuAliceW (by decide)).2.2.1⟩

/-- C10: a userspec override (or any other unrecognized keyword argument)
passed to ProotRunner's constructor is silently ignored apart from one debug
log entry per key — the resulting session state is identical to one built
with no extra kwargs — and the invocation prefix is exactly proot -S rootfs
-w / (plus the qemu argument only when the host machine architecture differs
from the target architecture): it contains no user-switching flag, so run and
run_script execute commands as the invoking user even when the caller
requested an override. -/
theorem C10_proot_ignores_userspec (rootfs arch : String) (kwargs : List String)
    (machine : String) (command : List String) :
    (prootInit rootfs arch kwargs).1 = (prootInit rootfs arch []).1 ∧
    (prootInit rootfs arch kwargs).2 =
      kwargs.map (fun k => "ProotRunner ignored not implemented kwarg: " ++ k) ∧
    prootBaseCommand machine (prootInit rootfs arch kwargs).1 =
      [PROOT, "-S", rootfs, "-w", "/"] ++
        (if machine != arch then ["-q", "qemu-" ++ arch ++ "-static"] else []) ∧
    prootRunArgv machine (prootInit rootfs arch kwargs).1 command =
      ([PROOT, "-S", rootfs, "-w", "/"] ++
        (if machine != arch then ["-q", "qemu-" ++ arch ++ "-static"] else [])) ++
        command :=
  ⟨rfl, rfl, rfl, rfl⟩

end Tib
